import Mathlib

/-!
Shallow embedding of the nebulaDefense decision core:
aggregation dispatch (reactiveAggregator.py, dynamicAggregator.py),
priority-based neighbor selection (priority_selector.py), and the
model loss sentinel (nebulamodel.py).
Floats are modelled as rationals; the randomness consumed by
`random.choice` and `numpy.random.choice` is passed in explicitly.
-/

/-- A model update: an ordered mapping from parameter name to numeric value,
opaque to the dispatch layer (it is only passed through). -/
abbrev ModelUpdate := List (String × ℚ)

/-- The concrete aggregation strategies registered in
`ReactiveAggregator.run_aggregation`'s ALGORITHM_MAP. -/
inductive Strategy
  | FedAvg
  | Krum
  | Median
  | TrimmedMean
  | Bulyan
  | BlockchainReputation
  | DynamicAggregator
  deriving DecidableEq, Repr

/-- `ALGORITHM_MAP` from reactiveAggregator.py lines 34-42: static mapping from
strategy name to the strategy it constructs. -/
def ALGORITHM_MAP : List (String × Strategy) :=
  [("FedAvg", .FedAvg),
   ("Krum", .Krum),
   ("Median", .Median),
   ("TrimmedMean", .TrimmedMean),
   ("Bulyan", .Bulyan),
   ("BlockchainReputation", .BlockchainReputation),
   ("DynamicAggregator", .DynamicAggregator)]

/-- `available_aggregators` from dynamicAggregator.py line 18: the closed
candidate set the random dispatcher draws from. -/
def availableAggregators : List Strategy :=
  [.FedAvg, .Krum, .Median, .TrimmedMean, .Bulyan]

/-- Trace of one `DynamicAggregator.run_aggregation` call: which strategy
`random.choice` picked, the reactive tag used for the log record, and the
update set delegated to the chosen strategy. -/
structure DynTrace where
  chosen : Strategy
  reactiveTag : Bool
  models : List ModelUpdate
  deriving DecidableEq, Repr

/-- `DynamicAggregator.run_aggregation(models, reactive_aggregator)`
(dynamicAggregator.py lines 10-31).  `random.choice` over the five candidates
is modelled by the caller-supplied natural `choice` reduced modulo the list
length; the chosen strategy receives `models` unchanged. -/
def dynamicRunAggregation (models : List ModelUpdate) (reactive : Bool)
    (choice : ℕ) : DynTrace :=
  { chosen := availableAggregators.getD (choice % availableAggregators.length) .FedAvg,
    reactiveTag := reactive,
    models := models }

/-- Result of one `ReactiveAggregator.run_aggregation` call: either the update
set was routed through the DynamicAggregator (the random dispatcher), or it was
delegated to a registry strategy looked up by the configured default name. -/
inductive ReactiveResult
  | viaDynamic (t : DynTrace)
  | viaDefault (s : Strategy) (models : List ModelUpdate)
  deriving DecidableEq, Repr

/-- `ReactiveAggregator.run_aggregation(models)` (reactiveAggregator.py lines
11-48), with the reputation collaborator's answer `(malicious, score)` already
obtained.  Non-empty malicious set: delegate everything to DynamicAggregator
with `reactive_aggregator = True`.  Empty: look up the configured default name
in ALGORITHM_MAP, falling back to FedAvg on a lookup miss (lines 43-45). -/
def reactiveRunAggregation (models : List ModelUpdate)
    (maliciousNodes : List String) (defaultName : String) (choice : ℕ) :
    ReactiveResult :=
  if maliciousNodes.length > 0 then
    .viaDynamic (dynamicRunAggregation models true choice)
  else
    match List.lookup defaultName ALGORITHM_MAP with
    | some s => .viaDefault s models
    | none => .viaDefault .FedAvg models

/-- reactiveAggregator.py line 14: `self.engine.reputation_calculation(models)`
is called with no exception handler, so a collaborator failure propagates out
of `run_aggregation` unchanged and the round fails. -/
def reactiveRunAggregationWithReputation (models : List ModelUpdate)
    (reputation : Except String (List String × ℚ)) (defaultName : String)
    (choice : ℕ) : Except String ReactiveResult :=
  match reputation with
  | .error e => .error e
  | .ok r => .ok (reactiveRunAggregation models r.1 defaultName choice)

/-! ## Priority selector (priority_selector.py) -/

abbrev NeighborId := String

/-- One neighbor's telemetry snapshot, the entries read by
`PrioritySelector.node_selection` from `self.features[neighbor]`. -/
structure FeatureSnapshot where
  loss : ℚ
  cpu_percent : ℚ
  data_size : ℚ
  bytes_received : ℚ
  bytes_sent : ℚ
  latency : ℚ
  availability : ℚ
  deriving DecidableEq, Repr

/-- The selector's `self.ages` dictionary. -/
abbrev Ages := NeighborId → Option ℕ

def agesInsert (ages : Ages) (n : NeighborId) (v : ℕ) : Ages :=
  fun m => if m = n then some v else ages m

/-- priority_selector.py lines 62-63: every neighbor absent from `self.ages`
is given age 1 on first sighting. -/
def initAges (ages : Ages) : List NeighborId → Ages
  | [] => ages
  | n :: rest =>
      initAges (if (ages n).isSome then ages else agesInsert ages n 1) rest

/-- priority_selector.py lines 114-116: after sampling, every neighbor not in
`selected_nodes` has its age incremented by 2. -/
def updateAges (ages : Ages) (selected : List NeighborId) :
    List NeighborId → Ages
  | [] => ages
  | n :: rest =>
      updateAges
        (if n ∈ selected then ages
         else agesInsert ages n ((ages n).getD 0 + 2))
        selected rest

def MIN_AMOUNT_OF_SELECTED_NEIGHBORS : ℕ := 1

def MAX_PERCENT_SELECTABLE_NEIGHBORS : ℚ := 8 / 10

/-- `FEATURE_WEIGHTS` from priority_selector.py line 28, in the order
loss, cpu_percent, data_size, bytes_received, bytes_sent, latency, age. -/
def FEATURE_WEIGHTS : List ℚ := [1, 1, 1, 1/2, 1/2, 10, 3]

/-- priority_selector.py lines 53-56:
`max(MIN_AMOUNT_OF_SELECTED_NEIGHBORS, floor(len(neighbors) * 0.8))`. -/
def numSelected (n : ℕ) : ℕ :=
  max MIN_AMOUNT_OF_SELECTED_NEIGHBORS
    (Nat.floor ((n : ℚ) * MAX_PERCENT_SELECTABLE_NEIGHBORS))

/-- The constant 0.000001 added before inverting cpu_percent and latency. -/
def eps : ℚ := 1 / 1000000

/-- priority_selector.py lines 66-72: the raw 7-entry feature list of one
neighbor (cpu_percent and latency inverted). -/
def featureList (f : FeatureSnapshot) (age : ℕ) : List ℚ :=
  [f.loss,
   1 / (f.cpu_percent + eps),
   f.data_size,
   f.bytes_received,
   f.bytes_sent,
   1 / (f.latency + eps),
   (age : ℚ)]

/-- priority_selector.py lines 74-76: loss entry -1 (metric unavailable) is
replaced by 100. -/
def remapLoss : List ℚ → List ℚ
  | [] => []
  | x :: rest => (if x = -1 then 100 else x) :: rest

/-- Columns of the 7-by-n feature matrix (one column per neighbor), built in
the loop of priority_selector.py lines 61-83. -/
def selectorCols (neighbors : List NeighborId)
    (features : NeighborId → FeatureSnapshot) (ages1 : Ages) :
    List (List ℚ) :=
  neighbors.map fun n => remapLoss (featureList (features n) ((ages1 n).getD 0))

/-- L1 norm of feature row `i` across all neighbor columns (the denominator
`sklearn.preprocessing.normalize(..., axis=1, norm=l1)` divides by). -/
def rowAbsSum (cols : List (List ℚ)) (i : ℕ) : ℚ :=
  (cols.map fun c => |c.getD i 0|).sum

/-- Entry `i` of one column after L1 row normalization; sklearn leaves a row
whose norm is zero unchanged. -/
def normEntry (cols : List (List ℚ)) (i : ℕ) (c : List ℚ) : ℚ :=
  if rowAbsSum cols i = 0 then c.getD i 0 else c.getD i 0 / rowAbsSum cols i

/-- priority_selector.py lines 86-93: normalize each feature row, weight it by
`FEATURE_WEIGHTS`, and sum over the 7 features to get one score per column. -/
def weightedScore (cols : List (List ℚ)) (c : List ℚ) : ℚ :=
  ∑ i ∈ Finset.range 7, FEATURE_WEIGHTS.getD i 0 * normEntry cols i c

/-- priority_selector.py line 98: per-neighbor score multiplied elementwise by
availability. -/
def finalScores (neighbors : List NeighborId)
    (features : NeighborId → FeatureSnapshot) (ages1 : Ages) : List ℚ :=
  List.zipWith (fun s a => s * a)
    ((selectorCols neighbors features ages1).map
      (weightedScore (selectorCols neighbors features ages1)))
    (neighbors.map fun n => (features n).availability)

/-- priority_selector.py line 101: `normalize([final_scores], axis=1,
norm=l1)`; a zero-norm row is left unchanged by sklearn. -/
def l1NormalizeRow (row : List ℚ) : List ℚ :=
  if (row.map fun x => |x|).sum = 0 then row
  else row.map fun x => x / (row.map fun y => |y|).sum

/-- The draws `numpy.random.choice(a, size, replace=False, p=p)` can return:
`size` distinct indices into `a`, each with non-zero probability. -/
def validPick (a : List NeighborId) (size : ℕ) (p : List ℚ)
    (pick : List ℕ) : Prop :=
  pick.length = size ∧ pick.Nodup ∧ (∀ i ∈ pick, i < a.length) ∧
    ∀ i ∈ pick, p.getD i 0 ≠ 0

instance (a : List NeighborId) (size : ℕ) (p : List ℚ) (pick : List ℕ) :
    Decidable (validPick a size p pick) := by
  unfold validPick; infer_instance

/-- Model of `numpy.random.choice(a, size, replace=False, p=p)` with the
randomness supplied as `pick`: numpy raises ValueError when `p` has negative
entries or does not sum to 1; otherwise the call returns `size` distinct
elements drawn from the support of `p`. -/
def npRandomChoice (a : List NeighborId) (size : ℕ) (p : List ℚ)
    (pick : List ℕ) : Except String (List NeighborId) :=
  if (p.map fun x => decide (x < 0)).any id then
    .error "ValueError: probabilities are not non-negative"
  else if p.sum ≠ 1 then
    .error "ValueError: probabilities do not sum to 1"
  else if validPick a size p pick then
    .ok (pick.map fun i => a.getD i "")
  else
    .error "draw outside the support of the distribution"

/-- Result of one `PrioritySelector.node_selection` call: the returned list
(or the numpy error that escaped) together with the `self.ages` map as the
call leaves it (ages already initialized to 1 for new neighbors even when the
sampling step raises). -/
structure SelectionRound where
  result : Except String (List NeighborId)
  ages : Ages

/-- `PrioritySelector.node_selection` (priority_selector.py lines 43-123).
Empty neighbor list: return `[node.addr]` with state untouched.  Otherwise
score the neighbors, turn the availability-weighted scores into a probability
vector, sample `numSelected` distinct neighbors, age the unselected ones, and
append the node's own address. -/
def node_selection (ages : Ages) (nodeAddr : NeighborId)
    (neighbors : List NeighborId) (features : NeighborId → FeatureSnapshot)
    (pick : List ℕ) : SelectionRound :=
  if neighbors.length = 0 then
    { result := .ok [nodeAddr], ages := ages }
  else
    let ages1 := initAges ages neighbors
    let p := l1NormalizeRow (finalScores neighbors features ages1)
    match npRandomChoice neighbors (numSelected neighbors.length) p pick with
    | .error e => { result := .error e, ages := ages1 }
    | .ok sel =>
        { result := .ok (sel ++ [nodeAddr]),
          ages := updateAges ages1 sel neighbors }

/-- The 7 raw features in the order the claim lists them:
loss (sentinel -1 remapped to 100, not inverted), 1/(cpu_percent+eps),
data_size, bytes_received, bytes_sent, 1/(latency+eps), age. -/
def specRawFeature (f : FeatureSnapshot) (age : ℕ) : ℕ → ℚ
  | 0 => if f.loss = -1 then 100 else f.loss
  | 1 => 1 / (f.cpu_percent + eps)
  | 2 => f.data_size
  | 3 => f.bytes_received
  | 4 => f.bytes_sent
  | 5 => 1 / (f.latency + eps)
  | 6 => (age : ℚ)
  | _ + 7 => 0

/-- Feature `i` of neighbor `n`, L1-normalized across the neighbor row
(the quotient is 0/0 = 0 exactly when the whole row is zero, matching
sklearn leaving a zero row unchanged). -/
def specNormFeature (neighbors : List NeighborId)
    (features : NeighborId → FeatureSnapshot) (ages1 : Ages) (i : ℕ)
    (n : NeighborId) : ℚ :=
  specRawFeature (features n) ((ages1 n).getD 0) i /
    (neighbors.map fun m => |specRawFeature (features m) ((ages1 m).getD 0) i|).sum

/-- Every age recorded in the map is at least 1. -/
def AgesWF (ages : Ages) : Prop :=
  ∀ n v, ages n = some v → 1 ≤ v

/-- The inputs of one `node_selection` call in a multi-round run. -/
structure RoundInput where
  addr : NeighborId
  neighbors : List NeighborId
  features : NeighborId → FeatureSnapshot
  pick : List ℕ

/-- The age map after a sequence of `node_selection` calls. -/
def runRounds (ages : Ages) : List RoundInput → Ages
  | [] => ages
  | r :: rest =>
      runRounds (node_selection ages r.addr r.neighbors r.features r.pick).ages rest

/-- Telemetry fixture: every neighbor has availability 0. -/
def zeroAvailFeatures : NeighborId → FeatureSnapshot :=
  fun _ =>
    { loss := 2, cpu_percent := 50, data_size := 10, bytes_received := 5,
      bytes_sent := 5, latency := 1, availability := 0 }

/-- Telemetry fixture: every raw feature is 1 and availability is 1. -/
def unitFeatures : NeighborId → FeatureSnapshot :=
  fun _ =>
    { loss := 1, cpu_percent := 1, data_size := 1, bytes_received := 1,
      bytes_sent := 1, latency := 1, availability := 1 }

/-! ## NebulaModel loss attribute (nebulamodel.py) -/

/-- The pieces of `NebulaModel` state touched by the embedded methods:
`self.loss` and the `self.global_number` counters. -/
structure NebulaModel where
  loss : ℚ
  globalTrain : ℕ
  globalValidation : ℕ
  globalTestLocal : ℕ
  globalTestGlobal : ℕ
  deriving DecidableEq, Repr

/-- `NebulaModel.__init__` (nebulamodel.py lines 118-155): `self.loss = -1`
and every `global_number` counter starts at 0. -/
def NebulaModel.init : NebulaModel :=
  { loss := -1, globalTrain := 0, globalValidation := 0,
    globalTestLocal := 0, globalTestGlobal := 0 }

/-- The lifecycle callbacks of `NebulaModel` that run after construction. -/
inductive ModelEvent
  | trainingStep (computedLoss : ℚ)
  | validationStep
  | testStep (dataloaderIdx : ℕ)
  | onTrainEnd
  | onValidationEnd
  | onTestEnd
  deriving DecidableEq, Repr

/-- State effect of each callback: only `training_step` (lines 176-187)
assigns `self.loss`; the epoch-end hooks bump `global_number`; validation and
test steps leave both untouched. -/
def NebulaModel.applyEvent (m : NebulaModel) : ModelEvent → NebulaModel
  | .trainingStep l => { m with loss := l }
  | .validationStep => m
  | .testStep _ => m
  | .onTrainEnd => { m with globalTrain := m.globalTrain + 1 }
  | .onValidationEnd => { m with globalValidation := m.globalValidation + 1 }
  | .onTestEnd =>
      { m with globalTestLocal := m.globalTestLocal + 1,
               globalTestGlobal := m.globalTestGlobal + 1 }

def ModelEvent.isTrainingStep : ModelEvent → Bool
  | .trainingStep _ => true
  | _ => false

def runEvents (m : NebulaModel) : List ModelEvent → NebulaModel
  | [] => m
  | e :: rest => runEvents (m.applyEvent e) rest

/-! ## Helper lemmas -/

theorem initAges_apply (l : List NeighborId) (ages : Ages) (n : NeighborId) :
    initAges ages l n = if n ∈ l ∧ ages n = none then some 1 else ages n := by
  induction l generalizing ages with
  | nil => simp [initAges]
  | cons m rest ih =>
    cases hma : ages m with
    | some v =>
      have h1 : (ages m).isSome = true := by rw [hma]; rfl
      simp only [initAges, h1, if_true]
      rw [ih]
      by_cases hn : n = m
      · subst hn; simp [hma]
      · simp [List.mem_cons, hn]
    | none =>
      have h1 : (ages m).isSome = false := by rw [hma]; rfl
      simp only [initAges, h1, Bool.false_eq_true, if_false]
      rw [ih]
      by_cases hn : n = m
      · subst hn; simp [agesInsert, hma]
      · simp [agesInsert, hn, List.mem_cons]

theorem updateAges_apply :
    ∀ (l : List NeighborId), l.Nodup → ∀ (ages : Ages) (sel : List NeighborId)
      (n : NeighborId),
      updateAges ages sel l n =
        if n ∈ l ∧ n ∉ sel then some ((ages n).getD 0 + 2) else ages n
  | [], _, ages, sel, n => by simp [updateAges]
  | m :: rest, hnd, ages, sel, n => by
      obtain ⟨hm, hrest⟩ := List.nodup_cons.mp hnd
      simp only [updateAges]
      by_cases hms : m ∈ sel
      · rw [if_pos hms, updateAges_apply rest hrest]
        by_cases hn : n = m
        · subst hn; simp [hm, hms]
        · simp [List.mem_cons, hn]
      · rw [if_neg hms, updateAges_apply rest hrest]
        by_cases hn : n = m
        · subst hn; simp [agesInsert, hm, hms]
        · simp [agesInsert, hn, List.mem_cons]

theorem initAges_pt (l : List NeighborId) (ages : Ages) (n : NeighborId)
    (v : ℕ) (h : ages n = some v) : initAges ages l n = some v := by
  rw [initAges_apply]; simp [h]

theorem initAges_WF (l : List NeighborId) (ages : Ages) (h : AgesWF ages) :
    AgesWF (initAges ages l) := by
  intro n v hv
  rw [initAges_apply] at hv
  split_ifs at hv with hc
  · injection hv with hv1; omega
  · exact h n v hv

theorem updateAges_ge :
    ∀ (l : List NeighborId) (ages : Ages) (sel : List NeighborId)
      (n : NeighborId) (v : ℕ), ages n = some v →
      ∃ w, v ≤ w ∧ updateAges ages sel l n = some w
  | [], ages, _, n, v, h => ⟨v, le_refl v, by simpa [updateAges] using h⟩
  | m :: rest, ages, sel, n, v, h => by
      simp only [updateAges]
      by_cases hms : m ∈ sel
      · rw [if_pos hms]
        exact updateAges_ge rest ages sel n v h
      · rw [if_neg hms]
        by_cases hn : n = m
        · subst hn
          obtain ⟨w, hw1, hw2⟩ :=
            updateAges_ge rest (agesInsert ages n ((ages n).getD 0 + 2)) sel n
              (v + 2) (by simp [agesInsert, h])
          exact ⟨w, by omega, hw2⟩
        · obtain ⟨w, hw1, hw2⟩ :=
            updateAges_ge rest (agesInsert ages m ((ages m).getD 0 + 2)) sel n
              v (by simp [agesInsert, hn, h])
          exact ⟨w, hw1, hw2⟩

theorem updateAges_WF :
    ∀ (l : List NeighborId) (ages : Ages) (sel : List NeighborId),
      AgesWF ages → AgesWF (updateAges ages sel l)
  | [], ages, _, h => by simpa [updateAges] using h
  | m :: rest, ages, sel, h => by
      simp only [updateAges]
      by_cases hms : m ∈ sel
      · rw [if_pos hms]
        exact updateAges_WF rest ages sel h
      · rw [if_neg hms]
        apply updateAges_WF rest _ sel
        intro n v hv
        by_cases hn : n = m
        · subst hn; simp [agesInsert] at hv; omega
        · simp [agesInsert, hn] at hv; exact h n v hv

theorem node_selection_ages_cases (ages : Ages) (addr : NeighborId)
    (neighbors : List NeighborId) (features : NeighborId → FeatureSnapshot)
    (pick : List ℕ) :
    (node_selection ages addr neighbors features pick).ages = ages ∨
    (node_selection ages addr neighbors features pick).ages =
      initAges ages neighbors ∨
    ∃ sel, (node_selection ages addr neighbors features pick).ages =
      updateAges (initAges ages neighbors) sel neighbors := by
  by_cases hlen : neighbors.length = 0
  · exact Or.inl (by simp [node_selection, hlen])
  · rcases h : npRandomChoice neighbors (numSelected neighbors.length)
        (l1NormalizeRow (finalScores neighbors features (initAges ages neighbors)))
        pick with e | sel
    · exact Or.inr (Or.inl (by simp [node_selection, hlen, h]))
    · exact Or.inr (Or.inr ⟨sel, by simp [node_selection, hlen, h]⟩)

theorem node_selection_ok {ages : Ages} {addr : NeighborId}
    {neighbors : List NeighborId} {features : NeighborId → FeatureSnapshot}
    {pick : List ℕ} {res : List NeighborId}
    (hne : neighbors ≠ [])
    (h : (node_selection ages addr neighbors features pick).result = .ok res) :
    ∃ sel,
      npRandomChoice neighbors (numSelected neighbors.length)
        (l1NormalizeRow (finalScores neighbors features (initAges ages neighbors)))
        pick = .ok sel ∧
      res = sel ++ [addr] ∧
      (node_selection ages addr neighbors features pick).ages =
        updateAges (initAges ages neighbors) sel neighbors := by
  have hlen : ¬ neighbors.length = 0 := by simpa using hne
  rcases hnp : npRandomChoice neighbors (numSelected neighbors.length)
      (l1NormalizeRow (finalScores neighbors features (initAges ages neighbors)))
      pick with e | sel
  · exfalso
    rw [show (node_selection ages addr neighbors features pick).result = .error e by
      simp [node_selection, hlen, hnp]] at h
    exact Except.noConfusion h
  · refine ⟨sel, rfl, ?_, by simp [node_selection, hlen, hnp]⟩
    rw [show (node_selection ages addr neighbors features pick).result =
      .ok (sel ++ [addr]) by simp [node_selection, hlen, hnp]] at h
    injection h with h1
    exact h1.symm

theorem npRandomChoice_ok {a : List NeighborId} {size : ℕ} {p : List ℚ}
    {pick : List ℕ} {sel : List NeighborId}
    (h : npRandomChoice a size p pick = .ok sel) :
    validPick a size p pick ∧ sel = pick.map fun i => a.getD i "" := by
  by_cases h1 : ((p.map fun x => decide (x < 0)).any id) = true
  · rw [npRandomChoice, if_pos h1] at h
    exact absurd h (by simp)
  by_cases h2 : p.sum ≠ 1
  · rw [npRandomChoice, if_neg h1, if_pos h2] at h
    exact absurd h (by simp)
  by_cases h3 : validPick a size p pick
  · rw [npRandomChoice, if_neg h1, if_neg h2, if_pos h3] at h
    refine ⟨h3, ?_⟩
    injection h with h4
    exact h4.symm
  · rw [npRandomChoice, if_neg h1, if_neg h2, if_neg h3] at h
    exact absurd h (by simp)

theorem node_selection_ages_WF (ages : Ages) (addr : NeighborId)
    (neighbors : List NeighborId) (features : NeighborId → FeatureSnapshot)
    (pick : List ℕ) (h : AgesWF ages) :
    AgesWF (node_selection ages addr neighbors features pick).ages := by
  rcases node_selection_ages_cases ages addr neighbors features pick with
    hc | hc | ⟨sel, hc⟩
  · rw [hc]; exact h
  · rw [hc]; exact initAges_WF _ _ h
  · rw [hc]; exact updateAges_WF _ _ _ (initAges_WF _ _ h)

theorem node_selection_ages_mono (ages : Ages) (addr : NeighborId)
    (neighbors : List NeighborId) (features : NeighborId → FeatureSnapshot)
    (pick : List ℕ) (n : NeighborId) (v : ℕ) (h : ages n = some v) :
    ∃ w, v ≤ w ∧
      (node_selection ages addr neighbors features pick).ages n = some w := by
  rcases node_selection_ages_cases ages addr neighbors features pick with
    hc | hc | ⟨sel, hc⟩
  · exact ⟨v, le_refl v, by rw [hc]; exact h⟩
  · exact ⟨v, le_refl v, by rw [hc]; exact initAges_pt _ _ _ _ h⟩
  · rw [hc]
    exact updateAges_ge _ _ _ _ _ (initAges_pt _ _ _ _ h)

theorem runRounds_WF :
    ∀ (rounds : List RoundInput) (ages : Ages),
      AgesWF ages → AgesWF (runRounds ages rounds)
  | [], ages, h => by simpa [runRounds] using h
  | r :: rest, ages, h => by
      simp only [runRounds]
      exact runRounds_WF rest _
        (node_selection_ages_WF ages r.addr r.neighbors r.features r.pick h)

theorem runRounds_mono :
    ∀ (rounds : List RoundInput) (ages : Ages) (n : NeighborId) (v : ℕ),
      ages n = some v → ∃ w, v ≤ w ∧ runRounds ages rounds n = some w
  | [], ages, n, v, h => ⟨v, le_refl v, by simpa [runRounds] using h⟩
  | r :: rest, ages, n, v, h => by
      simp only [runRounds]
      obtain ⟨w, hw1, hw2⟩ :=
        node_selection_ages_mono ages r.addr r.neighbors r.features r.pick n v h
      obtain ⟨u, hu1, hu2⟩ := runRounds_mono rest _ n w hw2
      exact ⟨u, le_trans hw1 hu1, hu2⟩

theorem remapLoss_featureList_getD (f : FeatureSnapshot) (age : ℕ) :
    ∀ i : ℕ, (remapLoss (featureList f age)).getD i 0 = specRawFeature f age i
  | 0 => rfl
  | 1 => rfl
  | 2 => rfl
  | 3 => rfl
  | 4 => rfl
  | 5 => rfl
  | 6 => rfl
  | _ + 7 => rfl

theorem abs_map_sum_nonneg (l : List ℚ) : 0 ≤ (l.map fun x => |x|).sum := by
  apply List.sum_nonneg
  intro x hx
  obtain ⟨y, -, rfl⟩ := List.mem_map.mp hx
  exact abs_nonneg y

theorem abs_map_sum_zero {l : List ℚ} (h : (l.map fun x => |x|).sum = 0) :
    ∀ x ∈ l, x = 0 := by
  induction l with
  | nil => simp
  | cons a t ih =>
    simp only [List.map_cons, List.sum_cons] at h
    have h1 := abs_nonneg a
    have h2 := abs_map_sum_nonneg t
    have hz := (add_eq_zero_iff_of_nonneg h1 h2).mp h
    intro x hx
    rcases List.mem_cons.mp hx with rfl | hx
    · exact abs_eq_zero.mp hz.1
    · exact ih hz.2 x hx

theorem rowAbsSum_selectorCols (neighbors : List NeighborId)
    (features : NeighborId → FeatureSnapshot) (ages1 : Ages) (i : ℕ) :
    rowAbsSum (selectorCols neighbors features ages1) i =
      (neighbors.map fun m =>
        |specRawFeature (features m) ((ages1 m).getD 0) i|).sum := by
  unfold rowAbsSum selectorCols
  rw [List.map_map]
  congr 1
  apply List.map_congr_left
  intro m _
  simp only [Function.comp_apply]
  rw [remapLoss_featureList_getD]

theorem normEntry_eq_div (cols : List (List ℚ)) (i : ℕ) (c : List ℚ)
    (hc : c ∈ cols) :
    normEntry cols i c = c.getD i 0 / rowAbsSum cols i := by
  unfold normEntry
  split_ifs with h
  · have h0 : ∀ x ∈ cols.map (fun col => col.getD i 0), x = 0 := by
      apply abs_map_sum_zero
      rw [List.map_map]
      simpa [Function.comp, rowAbsSum] using h
    have hc0 : c.getD i 0 = 0 := h0 _ (List.mem_map.mpr ⟨c, hc, rfl⟩)
    rw [hc0, h, div_zero]
  · rfl

theorem numSelected_le_ceil (n : ℕ) (hn : 1 ≤ n) :
    numSelected n ≤ Nat.ceil ((n : ℚ) * MAX_PERCENT_SELECTABLE_NEIGHBORS) := by
  unfold numSelected MIN_AMOUNT_OF_SELECTED_NEIGHBORS
  apply max_le
  · rw [Nat.one_le_ceil_iff]
    have h1 : (0 : ℚ) < (n : ℚ) := by exact_mod_cast hn
    have h2 : (0 : ℚ) < MAX_PERCENT_SELECTABLE_NEIGHBORS := by
      unfold MAX_PERCENT_SELECTABLE_NEIGHBORS
      norm_num
    exact mul_pos h1 h2
  · exact Nat.floor_le_ceil _

theorem runEvents_loss_of_no_train :
    ∀ (events : List ModelEvent) (m : NebulaModel),
      (∀ e ∈ events, e.isTrainingStep = false) →
      (runEvents m events).loss = m.loss
  | [], _, _ => rfl
  | e :: rest, m, h => by
      simp only [runEvents]
      rw [runEvents_loss_of_no_train rest _
        (fun x hx => h x (List.mem_cons_of_mem _ hx))]
      cases e with
      | trainingStep l =>
          exact absurd (h _ (List.mem_cons_self _ _))
            (by simp [ModelEvent.isTrainingStep])
      | validationStep => rfl
      | testStep i => rfl
      | onTrainEnd => rfl
      | onValidationEnd => rfl
      | onTestEnd => rfl

/-- C2: routing is decided exactly by the reputation result: a non-empty
malicious set always routes the whole update set through the DynamicAggregator
tagged reactive, never a registry default; an empty malicious set delegates to
the strategy the configured default name resolves to in the registry. -/
theorem C2_routing_by_reputation (models : List ModelUpdate)
    (maliciousNodes : List String) (defaultName : String) (choice : ℕ)
    (s : Strategy) :
    (maliciousNodes ≠ [] →
      reactiveRunAggregation models maliciousNodes defaultName choice =
        .viaDynamic { chosen := availableAggregators.getD (choice % 5) .FedAvg,
                      reactiveTag := true, models := models }) ∧
    (maliciousNodes = [] → List.lookup defaultName ALGORITHM_MAP = some s →
      reactiveRunAggregation models maliciousNodes defaultName choice =
        .viaDefault s models) := by
  constructor
  · intro hne
    have hlen : maliciousNodes.length > 0 := List.length_pos.mpr hne
    simp [reactiveRunAggregation, hlen, dynamicRunAggregation,
      availableAggregators]
  · intro hmal hlook
    subst hmal
    simp [reactiveRunAggregation, hlook]

theorem C2_routing_by_reputation_witness :
    (["badNode"] ≠ ([] : List String) →
      reactiveRunAggregation [[("w", 1)]] ["badNode"] "Krum" 7 =
        .viaDynamic { chosen := availableAggregators.getD (7 % 5) .FedAvg,
                      reactiveTag := true, models := [[("w", 1)]] }) ∧
    (["badNode"] = ([] : List String) →
      List.lookup "Krum" ALGORITHM_MAP = some .Krum →
      reactiveRunAggregation [[("w", 1)]] ["badNode"] "Krum" 7 =
        .viaDefault .Krum [[("w", 1)]]) :=
  C2_routing_by_reputation [[("w", 1)]] ["badNode"] "Krum" 7 .Krum

/-- C3: the code does not fail closed: when the reputation collaborator fails,
`run_aggregation` propagates the error (the round fails) instead of routing the
update set to the random dispatcher. -/
theorem C3_reputation_failure_propagates :
    reactiveRunAggregationWithReputation [[("w", 1)]]
      (.error "reputation collaborator failure") "FedAvg" 0 =
      .error "reputation collaborator failure" := by
  rfl

/-- C7: on a clean round with a configured default name missing from the
registry, the dispatcher does not fail: it delegates to FedAvg (Average),
and FedAvg is always present in the registry. -/
theorem C7_unknown_default_falls_back_to_fedavg (models : List ModelUpdate)
    (defaultName : String) (choice : ℕ)
    (hmiss : List.lookup defaultName ALGORITHM_MAP = none) :
    reactiveRunAggregation models [] defaultName choice =
      .viaDefault .FedAvg models ∧
    List.lookup "FedAvg" ALGORITHM_MAP = some .FedAvg := by
  constructor
  · simp [reactiveRunAggregation, hmiss]
  · rfl

theorem C7_unknown_default_falls_back_to_fedavg_witness :
    reactiveRunAggregation [[("w", 2)]] [] "NoSuchStrategy" 3 =
      .viaDefault .FedAvg [[("w", 2)]] ∧
    List.lookup "FedAvg" ALGORITHM_MAP = some .FedAvg :=
  C7_unknown_default_falls_back_to_fedavg [[("w", 2)]] "NoSuchStrategy" 3
    (by decide)

/-- C8: when malicious nodes are detected, the entire update set is handed to
the randomly chosen strategy unchanged: the delegated set equals the input
set exactly, whatever the random draw. -/
theorem C8_updates_delegated_unchanged (models : List ModelUpdate)
    (maliciousNodes : List String) (defaultName : String) (choice : ℕ)
    (hmal : maliciousNodes ≠ []) :
    ∃ t : DynTrace,
      reactiveRunAggregation models maliciousNodes defaultName choice =
        .viaDynamic t ∧ t.models = models ∧ t.reactiveTag = true := by
  have hlen : maliciousNodes.length > 0 := List.length_pos.mpr hmal
  exact ⟨dynamicRunAggregation models true choice,
    by simp [reactiveRunAggregation, hlen], rfl, rfl⟩

theorem C8_updates_delegated_unchanged_witness :
    ∃ t : DynTrace,
      reactiveRunAggregation [[("a", 1)], [("a", 5)]] ["evil"] "Median" 11 =
        .viaDynamic t ∧
      t.models = [[("a", 1)], [("a", 5)]] ∧ t.reactiveTag = true :=
  C8_updates_delegated_unchanged [[("a", 1)], [("a", 5)]] ["evil"] "Median" 11
    (by decide)

/-- C1: contrary to the uniform-fallback policy, when every neighbor has
availability 0 the final score vector is all zeros, sklearn leaves the
zero row unchanged, and `numpy.random.choice` raises a ValueError: the
round fails instead of falling back to a uniform distribution. -/
theorem C1_zero_availability_raises :
    (node_selection (fun _ => none) "self" ["n1", "n2"] zeroAvailFeatures
      [0]).result =
      .error "ValueError: probabilities do not sum to 1" := by
  with_unfolding_all rfl

/-- C4: for a non-empty neighbor list, the score of neighbor `j` before
sampling equals the sum over the seven features of the feature weight times
the L1-row-normalized raw feature (loss with the -1 sentinel remapped to 100,
cpu and latency inverted with epsilon), all multiplied by the neighbor's
availability. -/
theorem C4_score_formula (neighbors : List NeighborId)
    (features : NeighborId → FeatureSnapshot) (ages1 : Ages) (j : ℕ)
    (hj : j < neighbors.length) :
    (finalScores neighbors features ages1).getD j 0 =
      (∑ i ∈ Finset.range 7,
          FEATURE_WEIGHTS.getD i 0 *
            specNormFeature neighbors features ages1 i (neighbors.getD j "")) *
        (features (neighbors.getD j "")).availability := by
  have hflen : (finalScores neighbors features ages1).length =
      neighbors.length := by
    simp [finalScores, selectorCols]
  have hjf : j < (finalScores neighbors features ages1).length := by omega
  rw [List.getD_eq_getElem _ _ hjf, List.getD_eq_getElem _ _ hj]
  have hcols : (selectorCols neighbors features ages1).length =
      neighbors.length := by
    simp [selectorCols]
  have hjc : j < (selectorCols neighbors features ages1).length := by omega
  have hcj : (selectorCols neighbors features ages1).get ⟨j, hjc⟩ =
      remapLoss (featureList (features (neighbors.get ⟨j, hj⟩))
        ((ages1 (neighbors.get ⟨j, hj⟩)).getD 0)) := by
    simp [selectorCols]
  simp only [finalScores, List.getElem_zipWith, List.getElem_map]
  rw [show (selectorCols neighbors features ages1)[j] =
    (selectorCols neighbors features ages1).get ⟨j, hjc⟩ from rfl]
  congr 1
  unfold weightedScore
  apply Finset.sum_congr rfl
  intro i _hi
  congr 1
  rw [normEntry_eq_div _ _ _ (List.get_mem _ _ _)]
  rw [hcj, remapLoss_featureList_getD, rowAbsSum_selectorCols]
  rfl

theorem C4_score_formula_witness :
    (finalScores ["n1", "n2"] unitFeatures (fun _ => some 1)).getD 0 0 =
      (∑ i ∈ Finset.range 7,
          FEATURE_WEIGHTS.getD i 0 *
            specNormFeature ["n1", "n2"] unitFeatures (fun _ => some 1) i
              (["n1", "n2"].getD 0 "")) *
        (unitFeatures (["n1", "n2"].getD 0 "")).availability :=
  C4_score_formula ["n1", "n2"] unitFeatures (fun _ => some 1) 0 (by decide)

/-- C5: a successful `node_selection` on a non-empty neighbor list returns a
list containing the node's own address, with no duplicates, whose size minus
one equals `max(MIN_AMOUNT_OF_SELECTED_NEIGHBORS, floor(len(neighbors) *
MAX_PERCENT_SELECTABLE_NEIGHBORS))`, and that count always lies between the
minimum and `ceil(len(neighbors) * MAX_PERCENT_SELECTABLE_NEIGHBORS)`
inclusive. -/
theorem C5_selection_result (ages : Ages) (addr : NeighborId)
    (neighbors : List NeighborId) (features : NeighborId → FeatureSnapshot)
    (pick : List ℕ) (res : List NeighborId)
    (hne : neighbors ≠ []) (hnodup : neighbors.Nodup) (hself : addr ∉ neighbors)
    (h : (node_selection ages addr neighbors features pick).result = .ok res) :
    addr ∈ res ∧ res.Nodup ∧
    res.length - 1 = numSelected neighbors.length ∧
    MIN_AMOUNT_OF_SELECTED_NEIGHBORS ≤ numSelected neighbors.length ∧
    numSelected neighbors.length ≤
      Nat.ceil ((neighbors.length : ℚ) * MAX_PERCENT_SELECTABLE_NEIGHBORS) := by
  obtain ⟨sel, hnp, hres, -⟩ := node_selection_ok hne h
  obtain ⟨⟨hlen, hnd, hlt, -⟩, hsel⟩ := npRandomChoice_ok hnp
  subst hres
  subst hsel
  have hmapsub : ∀ x ∈ pick.map (fun i => neighbors.getD i ""),
      x ∈ neighbors := by
    intro x hx
    obtain ⟨i, hi, rfl⟩ := List.mem_map.mp hx
    have hilt := hlt i hi
    rw [List.getD_eq_getElem _ _ hilt]
    exact List.getElem_mem _
  have hmapnodup : (pick.map fun i => neighbors.getD i "").Nodup := by
    apply hnd.map_on
    intro i hi j hjj hf
    have hi2 := hlt i hi
    have hj2 := hlt j hjj
    rw [List.getD_eq_getElem _ _ hi2, List.getD_eq_getElem _ _ hj2] at hf
    exact (List.Nodup.getElem_inj_iff hnodup).mp hf
  refine ⟨by simp, ?_, ?_, le_max_left _ _, numSelected_le_ceil _ ?_⟩
  · rw [List.nodup_append]
    refine ⟨hmapnodup, List.nodup_singleton _, ?_⟩
    intro x hx hx2
    rw [List.mem_singleton] at hx2
    subst hx2
    exact hself (hmapsub _ hx)
  · simp [hlen]
  · have := List.length_pos.mpr hne
    omega

theorem C5_selection_result_witness :
    "me" ∈ ["n1", "me"] ∧ List.Nodup ["n1", "me"] ∧
    List.length ["n1", "me"] - 1 = numSelected (List.length ["n1", "n2"]) ∧
    MIN_AMOUNT_OF_SELECTED_NEIGHBORS ≤ numSelected (List.length ["n1", "n2"]) ∧
    numSelected (List.length ["n1", "n2"]) ≤
      Nat.ceil ((List.length ["n1", "n2"] : ℚ) *
        MAX_PERCENT_SELECTABLE_NEIGHBORS) :=
  C5_selection_result (fun _ => none) "me" ["n1", "n2"] unitFeatures [0]
    ["n1", "me"] (by decide) (by decide) (by decide)
    (by with_unfolding_all rfl)

/-- C6: ages are initialized to 1 on first sighting; after a round each
neighbor's age equals its prior age plus 2 if it was not selected and is
unchanged if it was selected; and across every sequence of `node_selection`
calls ages stay at least 1 and never decrease. -/
theorem C6_age_invariant (ages : Ages) (addr : NeighborId)
    (neighbors : List NeighborId) (features : NeighborId → FeatureSnapshot)
    (pick : List ℕ) (res : List NeighborId)
    (hnodup : neighbors.Nodup) (hself : addr ∉ neighbors)
    (h : (node_selection ages addr neighbors features pick).result = .ok res) :
    (∀ n ∈ neighbors, ages n = none →
      (node_selection ages addr neighbors features pick).ages n =
        some (1 + if n ∈ res then 0 else 2)) ∧
    (∀ n ∈ neighbors, ∀ v, ages n = some v →
      (node_selection ages addr neighbors features pick).ages n =
        some (v + if n ∈ res then 0 else 2)) ∧
    (∀ rounds : List RoundInput, AgesWF ages → AgesWF (runRounds ages rounds)) ∧
    (∀ rounds : List RoundInput, ∀ n v, ages n = some v →
      ∃ w, v ≤ w ∧ runRounds ages rounds n = some w) := by
  rcases eq_or_ne neighbors [] with rfl | hne
  · exact ⟨by simp, by simp,
      fun rounds hwf => runRounds_WF rounds ages hwf,
      fun rounds n v hv => runRounds_mono rounds ages n v hv⟩
  obtain ⟨sel, hnp, hres, hages⟩ := node_selection_ok hne h
  subst hres
  refine ⟨?_, ?_, fun rounds hwf => runRounds_WF rounds ages hwf,
    fun rounds n v hv => runRounds_mono rounds ages n v hv⟩
  · intro n hn hnone
    have hna : n ≠ addr := fun hc => hself (hc ▸ hn)
    have hinit : initAges ages neighbors n = some 1 := by
      rw [initAges_apply]
      simp [hn, hnone]
    rw [hages, updateAges_apply neighbors hnodup]
    by_cases hs : n ∈ sel
    · simp [hs, hinit, List.mem_append]
    · simp [hs, hn, hinit, hna, List.mem_append, List.mem_singleton]
  · intro n hn v hv
    have hna : n ≠ addr := fun hc => hself (hc ▸ hn)
    have hinit : initAges ages neighbors n = some v := initAges_pt _ _ _ _ hv
    rw [hages, updateAges_apply neighbors hnodup]
    by_cases hs : n ∈ sel
    · simp [hs, hinit, List.mem_append]
    · simp [hs, hn, hinit, hna, List.mem_append, List.mem_singleton]

theorem C6_age_invariant_witness :
    (node_selection (fun _ => none) "me" ["n1", "n2"] unitFeatures
        [0]).ages "n2" =
      some (1 + if "n2" ∈ ["n1", "me"] then 0 else 2) :=
  (C6_age_invariant (fun _ => none) "me" ["n1", "n2"] unitFeatures [0]
      ["n1", "me"] (by decide) (by decide)
      (by with_unfolding_all rfl)).1 "n2" (by decide) rfl

/-- C10: a freshly constructed NebulaModel has loss -1, the value is
preserved by every lifecycle event other than a training step, a training
step overwrites it with the computed loss, and the selector maps the -1
sentinel to the raw feature value 100. -/
theorem C10_loss_sentinel (events : List ModelEvent)
    (hnotrain : ∀ e ∈ events, e.isTrainingStep = false)
    (l : ℚ) (m : NebulaModel) (f : FeatureSnapshot) (age : ℕ)
    (hf : f.loss = (runEvents NebulaModel.init events).loss) :
    NebulaModel.init.loss = -1 ∧
    (runEvents NebulaModel.init events).loss = -1 ∧
    (m.applyEvent (.trainingStep l)).loss = l ∧
    (remapLoss (featureList f age)).getD 0 0 = 100 := by
  have h2 : (runEvents NebulaModel.init events).loss = -1 :=
    runEvents_loss_of_no_train events NebulaModel.init hnotrain
  refine ⟨rfl, h2, rfl, ?_⟩
  have hfl : f.loss = -1 := by rw [hf, h2]
  simp [remapLoss, featureList, hfl]

theorem C10_loss_sentinel_witness :
    NebulaModel.init.loss = -1 ∧
    (runEvents NebulaModel.init
      [ModelEvent.validationStep, ModelEvent.onTrainEnd]).loss = -1 ∧
    (NebulaModel.init.applyEvent (.trainingStep (7/2))).loss = 7/2 ∧
    (remapLoss (featureList
        { loss := -1, cpu_percent := 1, data_size := 1, bytes_received := 1,
          bytes_sent := 1, latency := 1, availability := 1 } 5)).getD 0 0 =
      100 :=
  C10_loss_sentinel [ModelEvent.validationStep, ModelEvent.onTrainEnd]
    (by decide) (7/2) NebulaModel.init
    { loss := -1, cpu_percent := 1, data_size := 1, bytes_received := 1,
      bytes_sent := 1, latency := 1, availability := 1 } 5
    (by with_unfolding_all rfl)
